import Mathlib

/-!
Verification of the saga combinator core (src/src/saga.rs).

The repository defines a `Saga` datatype wrapping a reaction function
`react : AR -> Vec<A>`, four combinators (`map_action`, `map_action_result`,
`combine`, `merge`) and the `ActionComputation` trait method
`compute_new_actions`.  We embed the code shallowly: reaction functions
become Lean functions into `List`, the combinators are translated line by
line from the Rust source, and `compute_new_actions` models the
`into_iter().collect()` round trip explicitly as a left fold that pushes
each element onto an accumulator, the way collecting an iterator into a
vector does.

To settle the error-handling claim we additionally embed a fallible
variant of the same code: a reaction function or transform that may panic
is modelled as a function into `Except E`, and each combinator is the same
Rust code with the strict call sites made explicit, so that a failure of an
underlying function aborts the computation with that very failure value.
-/

namespace FModel

/-- Modelled from the spec: the type `Sum<L, R>` is declared in the crate
root, which is not part of the sources here; only `saga.rs` uses it.  Per
the spec it is a closed two-variant tagged union, `First(L)` or `Second(R)`,
with exactly one payload present, and its shape is pinned by the pattern
matches in `Saga::combine`. -/
inductive Sum (L R : Type) : Type where
  | First : L → Sum L R
  | Second : R → Sum L R
  deriving DecidableEq, Repr

/-- Discriminates the `First` variant of `Sum`. -/
def Sum.is_first {L R : Type} : Sum L R → Bool
  | Sum.First _ => true
  | Sum.Second _ => false

/-- Discriminates the `Second` variant of `Sum`. -/
def Sum.is_second {L R : Type} : Sum L R → Bool
  | Sum.First _ => false
  | Sum.Second _ => true

/-- The `Saga` struct of `saga.rs`: a record holding the reaction function
`react`.  `Vec<A>` is embedded as `List A`. -/
structure Saga (AR A : Type) : Type where
  react : AR → List A

/-- `Saga::map_action` (saga.rs lines 92 to 102): the new reaction function
runs the original one and maps the transform over each produced action. -/
def Saga.map_action {AR A A2 : Type} (s : Saga AR A) (f : A → A2) : Saga AR A2 :=
  { react := fun ar => ((s.react ar).map (fun a => f a)) }

/-- `Saga::map_action_result` (saga.rs lines 106 to 116): the new reaction
function first converts the incoming action result and then delegates to
the original reaction function. -/
def Saga.map_action_result {AR AR2 A : Type} (s : Saga AR A) (f : AR2 → AR) :
    Saga AR2 A :=
  { react := fun ar2 => s.react (f ar2) }

/-- `Saga::combine` (saga.rs lines 120 to 133): the new reaction function
pattern matches on the tagged input; on `First` it delegates to the first
saga and wraps each action as `Second`, on `Second` it delegates to the
second saga and wraps each action as `First`. -/
def Saga.combine {AR AR2 A A2 : Type} (s : Saga AR A) (saga2 : Saga AR2 A2) :
    Saga (Sum AR AR2) (Sum A2 A) :=
  { react := fun ar => match ar with
      | Sum.First ar => ((s.react ar).map (fun a => Sum.Second a))
      | Sum.Second ar2 => ((saga2.react ar2).map (fun a => Sum.First a)) }

/-- `Saga::merge` (saga.rs lines 137 to 152): the new reaction function runs
both sagas on the same input, wraps the actions of the first saga as `Second`
and the actions of the second saga as `First`, and chains the two vectors in that
order. -/
def Saga.merge {AR A A2 : Type} (s : Saga AR A) (saga2 : Saga AR A2) :
    Saga AR (Sum A2 A) :=
  { react := fun ar =>
      ((s.react ar).map (fun a => Sum.Second a)) ++
        ((saga2.react ar).map (fun a2 => Sum.First a2)) }

/-- Embeds the `into_iter().collect()` round trip performed by
`compute_new_actions`: the iterator yields the elements in order and
collecting pushes each one onto the end of a fresh vector. -/
def collect_list {A : Type} (l : List A) : List A :=
  l.foldl (fun acc a => acc.concat a) []

/-- `ActionComputation::compute_new_actions` for `Saga` (saga.rs lines 161
to 166): runs the reaction function on the event and collects the iterator
over the result into a vector. -/
def Saga.compute_new_actions {AR A : Type} (s : Saga AR A) (event : AR) : List A :=
  collect_list (s.react event)

/-- Fallible embedding of the `Saga` struct: a reaction function that may
panic is modelled as returning `Except E (List A)`, the error value standing
for the propagating panic payload. -/
structure SagaE (E AR A : Type) : Type where
  react : AR → Except E (List A)

/-- Mapping a fallible transform over a list, aborting at the first failure
with that failure: this is what iterating `map` with a panicking closure
and collecting does in the Rust code of `map_action`. -/
def map_collect {E A A2 : Type} (f : A → Except E A2) : List A → Except E (List A2)
  | [] => Except.ok []
  | x :: xs => match f x with
      | Except.error e => Except.error e
      | Except.ok y => match map_collect f xs with
          | Except.error e => Except.error e
          | Except.ok ys => Except.ok (y :: ys)

/-- `Saga::map_action` under the fallible embedding: the original reaction
function is called strictly, then the transform is mapped over the result;
a failure at either step aborts with that failure. -/
def SagaE.map_action {E AR A A2 : Type} (s : SagaE E AR A) (f : A → Except E A2) :
    SagaE E AR A2 :=
  { react := fun ar => match s.react ar with
      | Except.error e => Except.error e
      | Except.ok a => map_collect f a }

/-- `Saga::map_action_result` under the fallible embedding: the adapter is
called strictly before the original reaction function. -/
def SagaE.map_action_result {E AR AR2 A : Type} (s : SagaE E AR A)
    (f : AR2 → Except E AR) : SagaE E AR2 A :=
  { react := fun ar2 => match f ar2 with
      | Except.error e => Except.error e
      | Except.ok ar => s.react ar }

/-- `Saga::combine` under the fallible embedding: only the branch selected
by the input tag runs, and its failure aborts with that failure. -/
def SagaE.combine {E AR AR2 A A2 : Type} (s : SagaE E AR A)
    (saga2 : SagaE E AR2 A2) : SagaE E (Sum AR AR2) (Sum A2 A) :=
  { react := fun ar => match ar with
      | Sum.First ar => match s.react ar with
          | Except.error e => Except.error e
          | Except.ok a => Except.ok (a.map (fun a => Sum.Second a))
      | Sum.Second ar2 => match saga2.react ar2 with
          | Except.error e => Except.error e
          | Except.ok a2 => Except.ok (a2.map (fun a => Sum.First a)) }

/-- `Saga::merge` under the fallible embedding: the first saga runs first,
then the second, and a failure of either aborts with that failure. -/
def SagaE.merge {E AR A A2 : Type} (s : SagaE E AR A) (saga2 : SagaE E AR A2) :
    SagaE E AR (Sum A2 A) :=
  { react := fun ar => match s.react ar with
      | Except.error e => Except.error e
      | Except.ok a => match saga2.react ar with
          | Except.error e => Except.error e
          | Except.ok a2 =>
              Except.ok
                ((a.map (fun a => Sum.Second a)) ++
                  (a2.map (fun a2 => Sum.First a2))) }

/-- `compute_new_actions` under the fallible embedding. -/
def SagaE.compute_new_actions {E AR A : Type} (s : SagaE E AR A) (event : AR) :
    Except E (List A) :=
  s.react event

/-- A fallible saga over naturals that always fails, used as a concrete
instance for the failure-propagation witness. -/
def sE_fail : SagaE String Nat Nat :=
  { react := fun _ => Except.error "boom" }

/-- A fallible saga over naturals that always succeeds, used as a concrete
instance for the failure-propagation witness. -/
def sE_ok : SagaE String Nat Nat :=
  { react := fun _ => Except.ok [1, 2] }

theorem foldl_concat_eq {A : Type} (l acc : List A) :
    l.foldl (fun acc a => acc.concat a) acc = acc ++ l := by
  induction l generalizing acc with
  | nil => simp
  | cons x xs ih =>
      rw [List.foldl_cons, ih (acc.concat x)]
      simp

theorem collect_list_eq {A : Type} (l : List A) : collect_list l = l := by
  simpa [collect_list] using foldl_concat_eq l []

theorem compute_eq_react {AR A : Type} (s : Saga AR A) (event : AR) :
    s.compute_new_actions event = s.react event := by
  simp [Saga.compute_new_actions, collect_list_eq]

theorem map_collect_error {E A A2 : Type} (f : A → Except E A2) (l : List A)
    (e : E) (h : map_collect f l = Except.error e) :
    ∃ x, x ∈ l ∧ f x = Except.error e := by
  induction l with
  | nil => simp [map_collect] at h
  | cons x xs ih =>
      simp only [map_collect] at h
      cases hx : f x with
      | error e2 =>
          rw [hx] at h
          exact ⟨x, List.mem_cons_self x xs, by simpa using hx.trans (by injection h with h2; rw [h2])⟩
      | ok y =>
          rw [hx] at h
          cases hxs : map_collect f xs with
          | error e2 =>
              rw [hxs] at h
              injection h with h2
              obtain ⟨z, hz, hfz⟩ := ih (by rw [hxs, h2])
              exact ⟨z, List.mem_cons_of_mem x hz, hfz⟩
          | ok ys => rw [hxs] at h; cases h

/-- Claim C1: for all sagas s1 and s2 over the same action-result type and
any input ar, the merged saga, on ar, returns the output sequence of s1
with every element wrapped Second, followed by the output sequence of s2
with every element wrapped First, each half in its original order. -/
theorem claim_C1_merge_concat {AR A A2 : Type} (s1 : Saga AR A) (s2 : Saga AR A2)
    (ar : AR) :
    (s1.merge s2).compute_new_actions ar =
      ((s1.compute_new_actions ar).map (fun a => Sum.Second a)) ++
        ((s2.compute_new_actions ar).map (fun a2 => Sum.First a2)) := by
  simp [Saga.merge, compute_eq_react]

/-- Claim C2: feeding First ar to the combined saga returns exactly the
output of s1 on ar with each element wrapped Second, in order, so every
element of the result is a Second variant. -/
theorem claim_C2_combine_first_input {AR AR2 A A2 : Type} (s1 : Saga AR A)
    (s2 : Saga AR2 A2) (ar : AR) :
    (s1.combine s2).compute_new_actions (Sum.First ar) =
        ((s1.compute_new_actions ar).map (fun a => Sum.Second a)) ∧
      ((s1.combine s2).compute_new_actions (Sum.First ar)).all Sum.is_second = true := by
  constructor
  · simp [Saga.combine, compute_eq_react]
  · simp [Saga.combine, compute_eq_react, Sum.is_second]

/-- Claim C3: feeding Second ar2 to the combined saga returns exactly the
output of s2 on ar2 with each element wrapped First, in order, so every
element of the result is a First variant. -/
theorem claim_C3_combine_second_input {AR AR2 A A2 : Type} (s1 : Saga AR A)
    (s2 : Saga AR2 A2) (ar2 : AR2) :
    (s1.combine s2).compute_new_actions (Sum.Second ar2) =
        ((s2.compute_new_actions ar2).map (fun a => Sum.First a)) ∧
      ((s1.combine s2).compute_new_actions (Sum.Second ar2)).all Sum.is_first = true := by
  constructor
  · simp [Saga.combine, compute_eq_react]
  · simp [Saga.combine, compute_eq_react, Sum.is_first]

/-- Claim C4: the mapped saga applies the transform element-wise: its output
is the map of f over the original output, has the same length, and its i-th
element is f of the i-th original element. -/
theorem claim_C4_map_action_elementwise {AR A A2 : Type} (s : Saga AR A)
    (f : A → A2) (ar : AR) :
    (s.map_action f).compute_new_actions ar = (s.compute_new_actions ar).map f ∧
      ((s.map_action f).compute_new_actions ar).length =
        (s.compute_new_actions ar).length ∧
      ∀ i : Nat, ((s.map_action f).compute_new_actions ar).get? i =
        ((s.compute_new_actions ar).get? i).map f := by
  refine ⟨?_, ?_, ?_⟩
  · simp [Saga.map_action, compute_eq_react]
  · simp [Saga.map_action, compute_eq_react]
  · intro i
    simp [Saga.map_action, compute_eq_react]

/-- Claim C5: functor identity law: mapping the identity transform over a
saga leaves compute_new_actions unchanged on every input. -/
theorem claim_C5_functor_identity {AR A : Type} (s : Saga AR A) (ar : AR) :
    (s.map_action (fun a => a)).compute_new_actions ar =
      s.compute_new_actions ar := by
  simp [Saga.map_action, compute_eq_react]

/-- Claim C6: functor composition law: mapping f then g equals mapping the
composition of g after f, on every input. -/
theorem claim_C6_functor_composition {AR A A2 A3 : Type} (s : Saga AR A)
    (f : A → A2) (g : A2 → A3) (ar : AR) :
    ((s.map_action f).map_action g).compute_new_actions ar =
      (s.map_action (fun a => g (f a))).compute_new_actions ar := by
  simp [Saga.map_action, compute_eq_react]

/-- Claim C7: the contravariantly mapped saga on ar2 returns the same
sequence as the unmapped saga on f ar2. -/
theorem claim_C7_map_action_result_adapter {AR AR2 A : Type} (s : Saga AR A)
    (f : AR2 → AR) (ar2 : AR2) :
    (s.map_action_result f).compute_new_actions ar2 =
      s.compute_new_actions (f ar2) := by
  simp [Saga.map_action_result, compute_eq_react]

/-- Claim C8: compute_new_actions returns exactly the result of the wrapped
reaction function, unchanged in content, order and length. -/
theorem claim_C8_compute_is_react {AR A : Type} (s : Saga AR A) (event : AR) :
    s.compute_new_actions event = s.react event := by
  simp [compute_eq_react]

/-- Claim C9: under the fallible embedding, each combinator introduces no
failure of its own: whenever compute_new_actions of a combined saga fails
with e, one of the underlying reaction functions or supplied transforms
failed with that very same e, unwrapped and unconverted. -/
theorem claim_C9_failure_propagation {E AR AR2 A A2 : Type}
    (s : SagaE E AR A) (s2 : SagaE E AR2 A2) (sm : SagaE E AR A2)
    (f : A → Except E A2) (g : AR2 → Except E AR)
    (ar : AR) (ar2 : AR2) (e : E) :
    ((s.map_action f).compute_new_actions ar = Except.error e →
        s.compute_new_actions ar = Except.error e ∨
          ∃ xs x, s.compute_new_actions ar = Except.ok xs ∧ x ∈ xs ∧
            f x = Except.error e) ∧
      ((s.map_action_result g).compute_new_actions ar2 = Except.error e →
        g ar2 = Except.error e ∨
          ∃ a, g ar2 = Except.ok a ∧ s.compute_new_actions a = Except.error e) ∧
      ((s.combine s2).compute_new_actions (Sum.First ar) = Except.error e →
        s.compute_new_actions ar = Except.error e) ∧
      ((s.combine s2).compute_new_actions (Sum.Second ar2) = Except.error e →
        s2.compute_new_actions ar2 = Except.error e) ∧
      ((s.merge sm).compute_new_actions ar = Except.error e →
        s.compute_new_actions ar = Except.error e ∨
          sm.compute_new_actions ar = Except.error e) := by
  refine ⟨?_, ?_, ?_, ?_, ?_⟩
  · intro h
    simp only [SagaE.map_action, SagaE.compute_new_actions] at h ⊢
    cases hr : s.react ar with
    | error e2 =>
        rw [hr] at h
        simp only [Except.error.injEq] at h
        left
        rw [h]
    | ok xs =>
        rw [hr] at h
        right
        obtain ⟨x, hx, hfx⟩ := map_collect_error f xs e h
        exact ⟨xs, x, rfl, hx, hfx⟩
  · intro h
    simp only [SagaE.map_action_result, SagaE.compute_new_actions] at h ⊢
    cases hg : g ar2 with
    | error e2 =>
        rw [hg] at h
        simp only [Except.error.injEq] at h
        left
        rw [h]
    | ok a =>
        rw [hg] at h
        exact Or.inr ⟨a, rfl, h⟩
  · intro h
    simp only [SagaE.combine, SagaE.compute_new_actions] at h ⊢
    cases hr : s.react ar with
    | error e2 =>
        rw [hr] at h
        simp only [Except.error.injEq] at h
        rw [h]
    | ok xs => rw [hr] at h; cases h
  · intro h
    simp only [SagaE.combine, SagaE.compute_new_actions] at h ⊢
    cases hr : s2.react ar2 with
    | error e2 =>
        rw [hr] at h
        simp only [Except.error.injEq] at h
        rw [h]
    | ok xs => rw [hr] at h; cases h
  · intro h
    simp only [SagaE.merge, SagaE.compute_new_actions] at h ⊢
    cases hr : s.react ar with
    | error e2 =>
        rw [hr] at h
        simp only [Except.error.injEq] at h
        left
        rw [h]
    | ok xs =>
        rw [hr] at h
        cases hr2 : sm.react ar with
        | error e2 =>
            rw [hr2] at h
            simp only [Except.error.injEq] at h
            right
            rw [h]
        | ok ys => rw [hr2] at h; cases h

/-- Witness for claim C9: the merge of an always-failing saga with an
always-succeeding one fails, and the theorem traces the failure back to one
of the two underlying reaction functions. -/
theorem claim_C9_failure_propagation_witness :
    sE_fail.compute_new_actions 0 = Except.error "boom" ∨
      sE_ok.compute_new_actions 0 = Except.error "boom" :=
  (claim_C9_failure_propagation sE_fail sE_ok sE_ok
      (fun a => Except.ok a) (fun n => Except.ok n) 0 0 "boom").2.2.2.2 rfl

/-- Claim C10: contravariant composition law: adapting with f and then with
g equals adapting once with the composition of f after g, on every input. -/
theorem claim_C10_contravariant_composition {AR AR2 AR3 A : Type} (s : Saga AR A)
    (f : AR2 → AR) (g : AR3 → AR2) (ar3 : AR3) :
    ((s.map_action_result f).map_action_result g).compute_new_actions ar3 =
      (s.map_action_result (fun x => f (g x))).compute_new_actions ar3 := by
  simp [Saga.map_action_result, compute_eq_react]

end FModel
